import Mathlib

/-!
Shallow embedding of the game-master core of this repository.

Sources embedded here:
- src/agents/agent_GameMaster/gm_cmds/gm_cmds.py (in-memory ledger, offer
  registry, structured command dispatcher, combat resolver), namespace GM;
- src/agents/agent_GameMaster/agent.py, the in-memory mirror part of
  _apply_effects_to_db, also in namespace GM;
- src/agents/agent_GamePlayer/db_models.py (DB-backed inventory helpers,
  apply_recipe, handle_craft), namespace PlayerDB;
- src/agents/agent_GamePlayer/hackathon_utils/player_helpers.py
  (_SeqRegistry.seen), namespace PlayerHelpers.

Modelling conventions:
- Python dicts keyed by strings become association lists with unique keys;
  dictSet and dictPop model key assignment and pop (pop removes every entry
  with the key, which coincides with dict pop since dict keys are unique).
- Inventories are total functions pid -> item -> Int (a missing key reads
  as 0, matching dict.get(k, 0)); quantities are mathematical integers.
- Wall-clock reads (now_ms) become an explicit integer parameter; one
  dispatcher call reads a single clock value.
- Python floats in the combat table become rationals; player coordinates
  are modelled as integers (the claims only involve integral distances) and
  math.hypot(dx,dy) <= R as the equivalent dx*dx + dy*dy <= R*R; Python
  round (half to even) is modelled by pyRound.
- Malformed-payload branches that depend on dynamic typing (missing keys,
  non-int values) are outside the typed command datatype; the empty-dict
  falsiness checks (empty give/want/pay/items) are kept.
-/

/-- Integer rounding with ties to even, the semantics of Python round. -/
def pyRound (q : ℚ) : ℤ :=
  let f := ⌊q⌋
  if q - f < 1/2 then f
  else if (1:ℚ)/2 < q - f then f + 1
  else if f % 2 = 0 then f else f + 1

/-- Lookup in an association list, modelling Python dict.get. -/
def dictGet {β : Type} (k : String) : List (String × β) → Option β
  | [] => none
  | kv :: rest => if kv.1 = k then some kv.2 else dictGet k rest

/-- Remove a key, modelling Python dict.pop (keys are unique in a dict). -/
def dictPop {β : Type} (k : String) (l : List (String × β)) : List (String × β) :=
  l.filter (fun kv => decide (kv.1 ≠ k))

/-- Key assignment d[k] = v on an association list acting as a dict. -/
def dictSet {β : Type} (k : String) (v : β) (l : List (String × β)) : List (String × β) :=
  (k, v) :: dictPop k l

/-- Inventories: actor -> item -> quantity, missing entries read as 0. -/
abbrev InvMap := String → String → ℤ

/-- Pointwise update of one actor's one item quantity. -/
def updInv (i : InvMap) (pid k : String) (q : ℤ) : InvMap :=
  fun p j => if p = pid ∧ j = k then q else i p j

namespace GM

/-- gm_cmds.py OFFER_TTL_MS. -/
def OFFER_TTL_MS : ℤ := 5000

/-- gm_cmds.py PROXIMITY_R (used squared in in_range). -/
def PROXIMITY_R : ℤ := 220

/-- gm_cmds.py new_txid: "t-" followed by the counter in hex. -/
def new_txid (n : Nat) : String := "t-" ++ (Nat.toDigits 16 n).asString

/-- A reservation record of RESERVED: owning pid and escrowed bundle. -/
structure Resv where
  pid : String
  items : List (String × ℤ)
deriving DecidableEq, Repr

/-- Offer kinds held in PENDING. -/
inductive OfferType | trade | learn | teach
deriving DecidableEq, Repr

def OfferType.kindName : OfferType → String
  | .trade => "trade"
  | .learn => "learn"
  | .teach => "teach"

/-- A PENDING offer dict: trade offers use give/want, learn/teach use
power/pay; ts and ttl drive expiry. -/
structure Offer where
  otype : OfferType
  from_ : String
  to_ : String
  give : List (String × ℤ) := []
  want : List (String × ℤ) := []
  power : String × ℤ := ("", 1)
  pay : List (String × ℤ) := []
  ts : ℤ
  ttl : ℤ
deriving DecidableEq, Repr

/-- An armed defense window in DEFENSE: expiry timestamp and item. -/
structure DefSlot where
  until_ : ℤ
  item : String
deriving DecidableEq, Repr

/-- The in-memory GM state: INVENTORY, RESERVED, PENDING, DEFENSE, the
players reference used for proximity, and the txid counter. -/
@[ext] structure GMState where
  inventory : InvMap
  reserved : List (String × Resv)
  pending : List (String × Offer)
  defense : List (String × DefSlot)
  players : String → Option (ℤ × ℤ)
  nextTx : Nat

/-- gm_cmds.inv_has: every requested quantity must be nonnegative and
covered by the current inventory. -/
def inv_has (i : InvMap) (pid : String) (need : List (String × ℤ)) : Bool :=
  need.all (fun kv => decide (kv.2 ≤ i pid kv.1) && decide (0 ≤ kv.2))

/-- gm_cmds.inv_add: per item, the new quantity is clamped at zero. -/
def inv_add (i : InvMap) (pid : String) (delta : List (String × ℤ)) : InvMap :=
  delta.foldl (fun j kv => updInv j pid kv.1 (max 0 (j pid kv.1 + kv.2))) i

/-- Negated bundle, as built by the dict comprehensions with -int(v). -/
def negBundle (b : List (String × ℤ)) : List (String × ℤ) :=
  b.map (fun kv => (kv.1, -kv.2))

/-- gm_cmds.reserve: move items from the inventory into RESERVED[txid]. -/
def reserve (pid txid : String) (items : List (String × ℤ)) (s : GMState) :
    Bool × GMState :=
  if inv_has s.inventory pid items then
    (true, { s with
      inventory := inv_add s.inventory pid (negBundle items),
      reserved := dictSet txid ⟨pid, items⟩ s.reserved })
  else (false, s)

/-- gm_cmds.release: pop the reservation and credit it back to its owner. -/
def release (txid : String) (s : GMState) : GMState :=
  match dictGet txid s.reserved with
  | some r => { s with
      reserved := dictPop txid s.reserved,
      inventory := inv_add s.inventory r.pid r.items }
  | none => s

/-- gm_cmds.consume: pop the reservation; credit it to grant_to if given. -/
def consume (txid : String) (grant_to : Option String) (s : GMState) : GMState :=
  match dictGet txid s.reserved with
  | some r =>
    let s1 := { s with reserved := dictPop txid s.reserved }
    match grant_to with
    | some g => { s1 with inventory := inv_add s1.inventory g r.items }
    | none => s1
  | none => s

/-- gm_cmds.in_range: both players must exist and lie within PROXIMITY_R
(the hypot comparison is modelled squared). -/
def in_range (s : GMState) (a b : String) : Bool :=
  match s.players a, s.players b with
  | some pa, some pb =>
    decide ((pa.1 - pb.1) * (pa.1 - pb.1) + (pa.2 - pb.2) * (pa.2 - pb.2)
      ≤ PROXIMITY_R * PROXIMITY_R)
  | _, _ => false

/-- One entry of resources.json combat.items: attack/defense tags and an
optional base damage (a nonempty tag string is modelled as some tag). -/
structure ItemInfo where
  attack : Option String := none
  defense : Option String := none
  damage : Option ℚ := none
deriving DecidableEq, Repr

/-- The loaded COMBAT block: items, table-wide base damage, the opposition
matrix (attack tag -> defense tag -> multiplier) and the requires flags. -/
structure CombatTable where
  items : List (String × ItemInfo) := []
  base_damage : ℚ := 1
  opposition : List (String × List (String × ℚ)) := []
  req_attack : Bool := false
  req_defense : Bool := false

/-- gm_cmds _attack_tag: the item's attack tag if present and nonempty. -/
def attack_tag (t : CombatTable) (item : String) : Option String :=
  match (dictGet item t.items).bind ItemInfo.attack with
  | some tag => if tag = "" then none else some tag
  | none => none

/-- gm_cmds _defense_tag: the item's defense tag, "none" as fallback. -/
def defense_tag (t : CombatTable) (item : Option String) : String :=
  match item with
  | none => "none"
  | some it =>
    match (dictGet it t.items).bind ItemInfo.defense with
    | some tag => if tag = "" then "none" else tag
    | none => "none"

/-- gm_cmds _base_damage: configured damage or the table-wide default. -/
def base_damage (t : CombatTable) (item : String) : ℚ :=
  ((dictGet item t.items).bind ItemInfo.damage).getD t.base_damage

/-- gm_cmds _opposition_mult: matrix lookup defaulting to 1. -/
def opposition_mult (t : CombatTable) (atk dfn : String) : ℚ :=
  ((dictGet atk t.opposition).bind (fun vs => dictGet dfn vs)).getD 1

/-- gm_cmds _defense_item_if_active: the armed defense item if its window
is unexpired (expired slots are popped; an empty item string reads falsy). -/
def defense_item_if_active (now : ℤ) (pid : String) (s : GMState) :
    Option String × GMState :=
  match dictGet pid s.defense with
  | none => (none, s)
  | some slot =>
    if now > slot.until_ then (none, { s with defense := dictPop pid s.defense })
    else (if slot.item = "" then none else some slot.item, s)

/-- The effects block of a cmd_status reply. -/
structure Effects where
  inventory : List (String × List (String × ℤ)) := []
  health : List (String × ℤ) := []
  skills : List (String × List (String × ℤ)) := []
  combat : Option (String × String × ℚ) := none
deriving DecidableEq, Repr

/-- A cmd_status reply (fields the claims touch; echo fields such as the
offer terms are omitted). -/
structure Reply where
  status : String
  kind : Option String := none
  reason : Option String := none
  txid : Option String := none
  from_ : Option String := none
  effects : Effects := {}
deriving DecidableEq, Repr

/-- The structured commands of overlay["cmd"], already shape-checked: the
dynamic isinstance checks of the Python handlers concern fields that are
typed here, while the falsiness checks on dict payloads remain. -/
inductive Cmd
| make (items : List (String × ℤ))
| rep (target : String) (delta : ℤ)
| trade (toPid : String) (give want : List (String × ℤ))
| accept (txid : String)
| cancel (txid : String)
| attack (target weapon : String)
| counter (target item : String)
| learn (toPid : String) (power : String × ℤ) (pay : List (String × ℤ))
| teach (toPid : String) (power : String × ℤ) (pay : List (String × ℤ))

/-- Loop body of _do_make: only the bread recipe exists; each produced item
debits dough and credits bread in memory and accumulates report deltas. -/
def make_loop (pid : String) (s : GMState) (eff : List (String × ℤ)) :
    List (String × ℤ) → Reply × GMState
  | [] =>
    ({ status := "matched", kind := some "make", from_ := some pid,
       effects := { inventory := [(pid, eff)] } }, s)
  | (item, q) :: rest =>
    if q ≤ 0 then
      ({ status := "error", reason := some "bad_qty", from_ := some pid }, s)
    else if item = "bread" then
      if ¬ inv_has s.inventory pid [("dough", q)] then
        ({ status := "rejected", reason := some "insufficient_inputs",
           from_ := some pid }, s)
      else
        let inv1 := inv_add s.inventory pid [("dough", -q)]
        let inv2 := inv_add inv1 pid [("bread", q)]
        let eff1 := dictSet "dough" ((dictGet "dough" eff).getD 0 - q) eff
        let eff2 := dictSet "bread" ((dictGet "bread" eff1).getD 0 + q) eff1
        make_loop pid { s with inventory := inv2 } eff2 rest
    else
      ({ status := "rejected", reason := some "unknown_recipe",
         from_ := some pid }, s)

/-- gm_cmds _do_make. -/
def do_make (pid : String) (items : List (String × ℤ)) (s : GMState) :
    Reply × GMState :=
  if items = [] then
    ({ status := "error", reason := some "bad_make", from_ := some pid }, s)
  else make_loop pid s [] items

/-- gm_cmds _do_trade: reserve the give bundle and record a PENDING offer. -/
def do_trade (now : ℤ) (pid toPid : String) (give want : List (String × ℤ))
    (s : GMState) : Reply × GMState :=
  if give = [] ∨ want = [] then
    ({ status := "error", reason := some "bad_trade", from_ := some pid }, s)
  else if ¬ inv_has s.inventory pid give then
    ({ status := "rejected", reason := some "insufficient_inventory",
       from_ := some pid }, s)
  else
    let txid := new_txid s.nextTx
    let s1 := { s with nextTx := s.nextTx + 1 }
    let rs := reserve pid txid give s1
    if ¬ rs.1 then
      ({ status := "rejected", reason := some "reserve_failed",
         from_ := some pid }, rs.2)
    else
      let off : Offer := { otype := .trade, from_ := pid, to_ := toPid,
                           give := give, want := want, ts := now,
                           ttl := OFFER_TTL_MS }
      ({ status := "accepted", kind := some "trade", txid := some txid,
         from_ := some pid },
       { rs.2 with pending := dictSet txid off rs.2.pending })

/-- gm_cmds _commit_trade: counterparty pays want, the reserved give bundle
is consumed to the counterparty, the proposer receives want. -/
def commit_trade (txid : String) (off : Offer) (acceptor : String)
    (s : GMState) : Reply × GMState :=
  if acceptor ≠ off.to_ then
    ({ status := "rejected", reason := some "not_counterparty",
       txid := some txid, from_ := some acceptor }, s)
  else if ¬ in_range s off.from_ off.to_ then
    ({ status := "rejected", reason := some "not_in_range",
       txid := some txid, from_ := some acceptor }, s)
  else if ¬ inv_has s.inventory off.to_ off.want then
    ({ status := "rejected", reason := some "insufficient_inventory",
       txid := some txid, from_ := some acceptor }, s)
  else
    let s1 := { s with inventory := inv_add s.inventory off.to_ (negBundle off.want) }
    let s2 := consume txid (some off.to_) s1
    let s3 := { s2 with inventory := inv_add s2.inventory off.from_ off.want,
                        pending := dictPop txid s2.pending }
    let effCp := (negBundle off.want).foldl (fun m kv => dictSet kv.1 kv.2 m) off.give
    ({ status := "matched", kind := some "trade", txid := some txid,
       from_ := some acceptor,
       effects := { inventory := dictSet off.to_ effCp (dictSet off.from_ off.want []) } },
     s3)

/-- gm_cmds _commit_learn_teach: the reserved pay bundle moves to the
non-payer, the offer is removed, the reply grants the skill. -/
def commit_learn_teach (txid : String) (off : Offer) (acceptor : String)
    (s : GMState) : Reply × GMState :=
  let learner := if off.otype = .learn then off.from_ else off.to_
  let teacher := if off.otype = .learn then off.to_ else off.from_
  if acceptor ≠ learner ∧ acceptor ≠ teacher then
    ({ status := "rejected", reason := some "not_counterparty",
       txid := some txid, from_ := some acceptor }, s)
  else if ¬ in_range s learner teacher then
    ({ status := "rejected", reason := some "not_in_range",
       txid := some txid, from_ := some acceptor }, s)
  else
    let s1 :=
      match dictGet txid s.reserved with
      | some res =>
        consume txid (some (if res.pid = learner then teacher else learner)) s
      | none => s
    let s2 := { s1 with pending := dictPop txid s1.pending }
    ({ status := "matched", kind := some off.otype.kindName, txid := some txid,
       from_ := some acceptor,
       effects := { skills := [(learner, [(off.power.1, off.power.2)])] } },
     s2)

/-- gm_cmds _do_accept: unknown txid errors; an expired offer is released
and removed; otherwise the offer kind dispatches to its commit routine. -/
def do_accept (now : ℤ) (pid txid : String) (s : GMState) : Reply × GMState :=
  match dictGet txid s.pending with
  | none =>
    ({ status := "error", reason := some "unknown_txid", from_ := some pid }, s)
  | some off =>
    if now > off.ts + off.ttl then
      let s1 := release txid s
      ({ status := "rejected", reason := some "expired", txid := some txid,
         from_ := some pid }, { s1 with pending := dictPop txid s1.pending })
    else
      match off.otype with
      | .trade => commit_trade txid off pid s
      | _ => commit_learn_teach txid off pid s

/-- gm_cmds _do_cancel: proposer-only release of a pending offer. -/
def do_cancel (pid txid : String) (s : GMState) : Reply × GMState :=
  match dictGet txid s.pending with
  | none =>
    ({ status := "error", reason := some "unknown_txid", from_ := some pid }, s)
  | some off =>
    if off.from_ ≠ pid then
      ({ status := "rejected", reason := some "not_owner", txid := some txid,
         from_ := some pid }, s)
    else
      let s1 := release txid s
      ({ status := "matched", kind := some "cancel", txid := some txid,
         from_ := some pid }, { s1 with pending := dictPop txid s1.pending })

/-- gm_cmds _do_attack: proximity gate, tag resolution, opposition lookup,
and the clamped rounded damage applied as a health effect on the target. -/
def do_attack (t : CombatTable) (now : ℤ) (pid target weapon : String)
    (s : GMState) : Reply × GMState :=
  if ¬ in_range s pid target then
    ({ status := "rejected", reason := some "not_in_range",
       from_ := some pid }, s)
  else
    let atk := attack_tag t weapon
    if t.req_attack ∧ atk = none then
      ({ status := "rejected", reason := some "invalid_weapon",
         from_ := some pid }, s)
    else
      let pr := defense_item_if_active now target s
      let dfn := defense_tag t pr.1
      let effAtk := atk.getD "none"
      let mult := opposition_mult t effAtk dfn
      let damage : ℤ := max 0 (pyRound (base_damage t weapon * mult))
      ({ status := "matched", kind := some "attack", from_ := some pid,
         effects := { health := [(target, -damage)],
                      combat := some (effAtk, dfn, mult) } }, pr.2)

/-- gm_cmds _do_counter: arm a 1000 ms defense window for the sender. -/
def do_counter (t : CombatTable) (now : ℤ) (pid _target item : String)
    (s : GMState) : Reply × GMState :=
  let dfn := defense_tag t (some item)
  if t.req_defense ∧ dfn = "none" then
    ({ status := "rejected", reason := some "invalid_defense",
       from_ := some pid }, s)
  else
    ({ status := "accepted", kind := some "counter", from_ := some pid },
     { s with defense := dictSet pid ⟨now + 1000, item⟩ s.defense })

/-- gm_cmds _do_learn_teach: the payer's pay bundle is reserved and a
learn/teach offer recorded as PENDING. -/
def do_learn_teach (now : ℤ) (pid : String) (is_learn : Bool) (toPid : String)
    (power : String × ℤ) (pay : List (String × ℤ)) (s : GMState) :
    Reply × GMState :=
  if pay = [] then
    ({ status := "error", reason := some "bad_learn_teach",
       from_ := some pid }, s)
  else
    let payer := if is_learn then pid else toPid
    if ¬ inv_has s.inventory payer pay then
      ({ status := "rejected", reason := some "insufficient_inventory",
         from_ := some pid }, s)
    else
      let txid := new_txid s.nextTx
      let s1 := { s with nextTx := s.nextTx + 1 }
      let rs := reserve payer txid pay s1
      if ¬ rs.1 then
        ({ status := "rejected", reason := some "reserve_failed",
           from_ := some pid }, rs.2)
      else
        let off : Offer := { otype := if is_learn then .learn else .teach,
                             from_ := pid, to_ := toPid, power := power,
                             pay := pay, ts := now, ttl := OFFER_TTL_MS }
        ({ status := "accepted",
           kind := some (if is_learn then "learn" else "teach"),
           txid := some txid, from_ := some pid },
         { rs.2 with pending := dictSet txid off rs.2.pending })

/-- The body of one sweep step: an expired offer is released and removed. -/
def expireTx (txid : String) (st : GMState) : GMState :=
  let st1 := release txid st
  { st1 with pending := dictPop txid st1.pending }

/-- One iteration of the sweep loop over a snapshot entry of PENDING. -/
def sweep_step (now : ℤ) (st : GMState) (p : String × Offer) : GMState :=
  if now > p.2.ts + p.2.ttl then expireTx p.1 st else st

/-- gm_cmds sweep_expired_offers: every PENDING offer past its TTL is
released back to its owner and removed (iterating a snapshot of PENDING). -/
def sweep_expired_offers (now : ℤ) (s : GMState) : GMState :=
  s.pending.foldl (sweep_step now) s

/-- gm_cmds process_structured_cmd: sweep, then dispatch on the kind. -/
def process_structured_cmd (t : CombatTable) (now : ℤ) (pid : String)
    (cmd : Cmd) (s0 : GMState) : Reply × GMState :=
  let s := sweep_expired_offers now s0
  match cmd with
  | .make items => do_make pid items s
  | .rep _ _ =>
    ({ status := "matched", kind := some "rep", from_ := some pid }, s)
  | .trade toPid give want => do_trade now pid toPid give want s
  | .accept txid => do_accept now pid txid s
  | .cancel txid => do_cancel pid txid s
  | .attack target weapon => do_attack t now pid target weapon s
  | .counter target item => do_counter t now pid target item s
  | .learn toPid power pay => do_learn_teach now pid true toPid power pay s
  | .teach toPid power pay => do_learn_teach now pid false toPid power pay s
  -- the rep handler ignores target and delta apart from echoing them

/-- One actor's row of the in-memory effects mirror of agent.py
_apply_effects_to_db: each delta is added onto GM_INV and entries falling
to zero or below are popped (in the quantity view they read as 0). -/
def mirror_row (pid : String) (i : InvMap) (deltas : List (String × ℤ)) :
    InvMap :=
  deltas.foldl
    (fun j kv =>
      let v := j pid kv.1 + kv.2
      updInv j pid kv.1 (if v ≤ 0 then 0 else v))
    i

/-- agent.py _apply_effects_to_db, in-memory part: mirror every per-pid
delta map of the reply's inventory effects onto GM_INV. -/
def mirror_inventory (i : InvMap) (fx : List (String × List (String × ℤ))) :
    InvMap :=
  fx.foldl (fun j pd => mirror_row pd.1 j pd.2) i

/-- agent.py on_overlay command path: dispatch the structured command, then
mirror the reply's inventory effects onto the in-memory ledger (the DB
write of the same deltas is the persistence mirror, not modelled). -/
def handle_overlay_cmd (t : CombatTable) (now : ℤ) (pid : String) (cmd : Cmd)
    (s : GMState) : Reply × GMState :=
  let rs := process_structured_cmd t now pid cmd s
  (rs.1, { rs.2 with inventory := mirror_inventory rs.2.inventory rs.1.effects.inventory })

end GM

namespace PlayerDB

/-- db_models.inv_has: requests of zero or less are skipped; every other
request must be covered by the stored quantity. -/
def inv_has (i : InvMap) (pid : String) (need : List (String × ℤ)) : Bool :=
  need.all (fun kv => decide (kv.2 ≤ 0) || decide (kv.2 ≤ i pid kv.1))

/-- db_models.inv_add: the updated (or inserted) row quantity is clamped
at zero for any delta. -/
def inv_add (i : InvMap) (pid item : String) (delta : ℤ) : InvMap :=
  updInv i pid item (max 0 (i pid item + delta))

/-- db_models.inv_bulk_add: inv_add per entry of the delta map. -/
def inv_bulk_add (i : InvMap) (pid : String) (delta : List (String × ℤ)) :
    InvMap :=
  delta.foldl (fun j kv => inv_add j pid kv.1 kv.2) i

/-- The requires/consumes/produces triple handed to apply_recipe. -/
structure RecipeSpec where
  requires : List (String × ℤ)
  consumes : List (String × ℤ)
  produces : List (String × ℤ)

/-- The consumes loop of apply_recipe inside the transaction: none means
the mid-loop sufficiency check failed and the transaction rolls back. -/
def consume_loop (pid : String) : InvMap → List (String × ℤ) → Option InvMap
  | i, [] => some i
  | i, (it, q) :: rest =>
    if q ≤ 0 then consume_loop pid i rest
    else if i pid it < q then none
    else consume_loop pid (updInv i pid it (i pid it - q)) rest

/-- The produces loop of apply_recipe: positive outputs are credited. -/
def produce_loop (pid : String) : InvMap → List (String × ℤ) → InvMap
  | i, [] => i
  | i, (it, q) :: rest =>
    if q ≤ 0 then produce_loop pid i rest
    else produce_loop pid (updInv i pid it (i pid it + q)) rest

/-- db_models.apply_recipe: validate shapes, pre-check sufficiency, then a
transaction that re-checks, consumes and produces; every failure path
rolls the inventory back unchanged (SQLite ROLLBACK). -/
def apply_recipe (i : InvMap) (pid : String) (r : RecipeSpec) :
    (Bool × String) × InvMap :=
  if r.consumes.any (fun kv => decide (kv.2 < 0))
      || r.produces.any (fun kv => decide (kv.2 < 0)) then
    ((false, "invalid_recipe"), i)
  else if ¬ inv_has i pid r.requires then
    ((false, "missing_requirements"), i)
  else if ¬ inv_has i pid r.requires then
    -- the re-check under BEGIN IMMEDIATE; with a single sequential state
    -- it reads the same inventory as the pre-check
    ((false, "missing_requirements"), i)
  else
    match consume_loop pid i r.consumes with
    | none => ((false, "missing_requirements"), i)
    | some i2 => ((true, "ok"), produce_loop pid i2 r.produces)

/-- A recipe entry of resources.json as read by handle_craft. -/
structure RecipeDef where
  id : String
  inputs : List (String × ℤ)
  outputs : List (String × ℤ)

/-- The craft reply fields the claims touch. -/
structure CraftReply where
  status : String
  reason : Option String := none
  crafted : Nat := 0
deriving DecidableEq, Repr

/-- The repetition loop of handle_craft for an integer times argument:
apply the recipe until the count is reached or one application fails. -/
def craft_iter (pid : String) (r : RecipeSpec) :
    Nat → InvMap → Nat → (Option String × Nat × InvMap)
  | 0, i, n => (none, n, i)
  | Nat.succ k, i, n =>
    let res := apply_recipe i pid r
    if res.1.1 then craft_iter pid r k res.2 (n + 1)
    else (some res.1.2, n, res.2)

/-- db_models.handle_craft for an integer times argument (the "max" mode,
an unbounded greedy loop, is not modelled): resolve the recipe id, then
apply it max 1 times times, replying rejected with the failure reason and
the count crafted so far if an application fails. -/
def handle_craft (i : InvMap) (pid rid : String) (times : ℤ)
    (recipes : List RecipeDef) : CraftReply × InvMap :=
  if rid = "" then
    ({ status := "rejected", reason := some "missing_recipe" }, i)
  else
    match recipes.find? (fun r => r.id == rid) with
    | none => ({ status := "rejected", reason := some "unknown_recipe" }, i)
    | some rec =>
      let t := max 1 times
      let res := craft_iter pid
        { requires := rec.inputs, consumes := rec.inputs,
          produces := rec.outputs } t.toNat i 0
      match res.1 with
      | some why =>
        ({ status := "rejected", reason := some why, crafted := res.2.1 },
         res.2.2)
      | none => ({ status := "matched", crafted := res.2.1 }, res.2.2)

end PlayerDB

namespace PlayerHelpers

/-- The watermark store of player_helpers _SeqRegistry: consumer name and
actor id to last seen sequence number, defaulting to -1. -/
abbrev SeqReg := String → String → ℤ

/-- The registry created on module import: no watermark stored yet, every
lookup reads the default -1. -/
def seqRegInit : SeqReg := fun _ _ => -1

/-- _SeqRegistry.seen: true (duplicate) when sq is at most the stored
watermark for (consumer, pid); otherwise the watermark becomes sq. -/
def seen (reg : SeqReg) (consumer pid : String) (sq : ℤ) : Bool × SeqReg :=
  if sq ≤ reg consumer pid then (true, reg)
  else (false, fun c p => if c = consumer ∧ p = pid then sq else reg c p)

end PlayerHelpers

section Fixtures

open GM

/-- A combat table with nothing configured (resources.json not loaded). -/
def emptyTable : CombatTable := {}

/-- Nonnegativity of every stored quantity, the ledger invariant. -/
def InvNonneg (i : InvMap) : Prop := ∀ p k, 0 ≤ i p k

/-- Scenario state: actor A holds one bread, actor B one wood, both placed
10 units apart, no offers pending. -/
def sTrade : GMState :=
  { inventory := fun p k =>
      if p = "A" ∧ k = "bread" then 1 else if p = "B" ∧ k = "wood" then 1 else 0,
    reserved := [], pending := [], defense := [],
    players := fun p =>
      if p = "A" then some (0, 0) else if p = "B" then some (10, 0) else none,
    nextTx := 1 }

/-- The trade command of the scenario, processed with effects mirroring. -/
def tradeStep1 : GM.Reply × GMState :=
  handle_overlay_cmd emptyTable 0 "A"
    (.trade "B" [("bread", 1)] [("wood", 1)]) sTrade

/-- The accept command of the scenario, processed with effects mirroring. -/
def tradeStep2 : GM.Reply × GMState :=
  handle_overlay_cmd emptyTable 100 "B" (.accept "t-1") tradeStep1.2

/-- A trade offer from A to B created at time 0 with the 5000 ms TTL. -/
def offExpired : Offer :=
  { otype := .trade, from_ := "A", to_ := "B", give := [("bread", 1)],
    want := [("wood", 1)], ts := 0, ttl := 5000 }

/-- State holding the pending offer offExpired together with its
reservation of A's bread. -/
def sExpired : GMState :=
  { inventory := fun p k => if p = "B" ∧ k = "wood" then 1 else 0,
    reserved := [("t-1", ⟨"A", [("bread", 1)]⟩)],
    pending := [("t-1", offExpired)], defense := [],
    players := fun p =>
      if p = "A" then some (0, 0) else if p = "B" then some (10, 0) else none,
    nextTx := 2 }

/-- Combat table modelled from the spec. Modelled from the spec: the
repository's resources.json (the loaded combat configuration) is not under
src/; per the spec scenario, weapon knife has attack tag pierce and damage
5, and the opposition matrix maps pierce versus none to multiplier 1.0. -/
def specKnifeTable : CombatTable :=
  { items := [("knife", { attack := some "pierce", damage := some 5 })],
    opposition := [("pierce", [("none", 1)])] }

/-- Attacker alice and defender bob 10 units apart, no armed defense. -/
def sAttack : GMState :=
  { inventory := fun _ _ => 0, reserved := [], pending := [], defense := [],
    players := fun p =>
      if p = "alice" then some (0, 0) else if p = "bob" then some (10, 0) else none,
    nextTx := 1 }

/-- A second attack state with different clutter: other inventories, an
unrelated pending offer, different positions still within range. -/
def sAttackB : GMState :=
  { inventory := fun _ _ => 7, reserved := [],
    pending := [("t-9", { otype := .trade, from_ := "x", to_ := "y",
                          ts := 0, ttl := 9999999 })],
    defense := [],
    players := fun p =>
      if p = "alice" then some (3, 4) else if p = "bob" then some (0, 0) else none,
    nextTx := 5 }

/-- Inventory for the craft scenario: one wood for actor p1. -/
def craftInv : InvMap := fun p k => if p = "p1" ∧ k = "wood" then 1 else 0

/-- The craft scenario recipe list: mk_plank needs two wood, makes one
plank. -/
def plankRecipes : List PlayerDB.RecipeDef :=
  [{ id := "mk_plank", inputs := [("wood", 2)], outputs := [("plank", 1)] }]

/-- Expired-offer state with an empty inventory, for witnesses. -/
def sExpiredZ : GMState :=
  { inventory := fun _ _ => 0,
    reserved := [("t-1", ⟨"A", [("bread", 1)]⟩)],
    pending := [("t-1", offExpired)], defense := [],
    players := fun _ => none, nextTx := 2 }

/-- An inventory holding five wood for actor A. -/
def woodInv : InvMap := fun p k => if p = "A" ∧ k = "wood" then 5 else 0

/-- The inventory-check contract as the claim words it: a requested
quantity of zero or less is trivially satisfied, any other request must be
covered by the stored quantity. -/
def claimHas (i : InvMap) (pid : String) (need : List (String × ℤ)) : Bool :=
  need.all (fun kv => decide (kv.2 ≤ 0) || decide (kv.2 ≤ i pid kv.1))

end Fixtures

/-! Helper lemmas on the dict and inventory primitives. -/

theorem dictGet_dictSet_self {β : Type} (k : String) (v : β)
    (l : List (String × β)) : dictGet k (dictSet k v l) = some v := by
  simp [dictSet, dictGet]

theorem dictGet_dictPop_self {β : Type} (k : String) (l : List (String × β)) :
    dictGet k (dictPop k l) = none := by
  induction l with
  | nil => rfl
  | cons kv rest ih =>
    by_cases h : kv.1 = k
    · simpa [dictPop, List.filter_cons, h] using ih
    · simpa [dictPop, List.filter_cons, h, dictGet] using ih

theorem dictGet_dictPop_ne {β : Type} {j k : String} (h : j ≠ k)
    (l : List (String × β)) : dictGet j (dictPop k l) = dictGet j l := by
  induction l with
  | nil => rfl
  | cons kv rest ih =>
    rw [dictPop, List.filter_cons]
    by_cases hk : kv.1 = k
    · rw [if_neg (by simp [hk])]
      have hkj : ¬ kv.1 = j := by rw [hk]; exact fun e => h e.symm
      rw [show dictGet j (kv :: rest) = dictGet j rest by
        rw [dictGet, if_neg hkj]]
      exact ih
    · rw [if_pos (by simp [hk])]
      by_cases hj : kv.1 = j
      · rw [dictGet, if_pos hj, dictGet, if_pos hj]
      · rw [dictGet, if_neg hj, dictGet, if_neg hj]
        exact ih

theorem dictPop_idem {β : Type} (k : String) (l : List (String × β)) :
    dictPop k (dictPop k l) = dictPop k l := by
  induction l with
  | nil => rfl
  | cons kv rest ih =>
    rw [dictPop, dictPop, List.filter_cons]
    by_cases h : kv.1 = k
    · have hb : decide (kv.1 ≠ k) = false := by simp [h]
      rw [hb]
      simp only [Bool.false_eq_true, if_false]
      exact ih
    · have hb : decide (kv.1 ≠ k) = true := by simp [h]
      rw [hb, if_pos rfl, List.filter_cons, hb, if_pos rfl]
      exact congrArg (fun l => kv :: l) ih

theorem dictGet_mem {β : Type} {k : String} {v : β} :
    ∀ {l : List (String × β)}, dictGet k l = some v → (k, v) ∈ l := by
  intro l
  induction l with
  | nil => intro h; cases h
  | cons kv rest ih =>
    intro h
    rw [dictGet] at h
    by_cases hk : kv.1 = k
    · rw [if_pos hk] at h
      injection h with h2
      exact List.mem_cons.mpr (Or.inl (Prod.ext_iff.mpr ⟨hk, h2⟩).symm)
    · rw [if_neg hk] at h
      exact List.mem_cons_of_mem _ (ih h)

theorem dictGet_eq_none_of_notkey {β : Type} {k : String}
    {l : List (String × β)} (h : k ∉ l.map Prod.fst) : dictGet k l = none := by
  induction l with
  | nil => rfl
  | cons kv rest ih =>
    rw [List.map_cons, List.mem_cons] at h
    push_neg at h
    rw [dictGet, if_neg (fun e => h.1 e.symm)]
    exact ih h.2

theorem updInv_self (i : InvMap) (pid k : String) (q : ℤ) :
    updInv i pid k q pid k = q := by
  simp [updInv]

theorem updInv_ne (i : InvMap) {pid k : String} (q : ℤ) {p j : String}
    (h : ¬ (p = pid ∧ j = k)) : updInv i pid k q p j = i p j := by
  simp [updInv, h]

namespace GM

theorem inv_add_cons (i : InvMap) (pid : String) (kv : String × ℤ)
    (rest : List (String × ℤ)) :
    inv_add i pid (kv :: rest)
      = inv_add (updInv i pid kv.1 (max 0 (i pid kv.1 + kv.2))) pid rest := rfl

theorem inv_add_ne (pid : String) (δ : List (String × ℤ)) {p k : String}
    (h : p ≠ pid) : ∀ i : InvMap, inv_add i pid δ p k = i p k := by
  induction δ with
  | nil => intro i; rfl
  | cons kv rest ih =>
    intro i
    rw [inv_add_cons, ih]
    exact updInv_ne _ _ (fun e => h e.1)

theorem inv_add_notkey (pid k : String) :
    ∀ δ : List (String × ℤ), dictGet k δ = none →
      ∀ i : InvMap, inv_add i pid δ pid k = i pid k := by
  intro δ
  induction δ with
  | nil => intro _ i; rfl
  | cons kv rest ih =>
    intro h i
    rw [dictGet] at h
    by_cases hk : kv.1 = k
    · rw [if_pos hk] at h; cases h
    · rw [if_neg hk] at h
      rw [inv_add_cons, ih h]
      exact updInv_ne _ _ (fun e => hk e.2.symm)

theorem inv_add_key (pid k : String) (v : ℤ) :
    ∀ δ : List (String × ℤ), (δ.map Prod.fst).Nodup → dictGet k δ = some v →
      ∀ i : InvMap, inv_add i pid δ pid k = max 0 (i pid k + v) := by
  intro δ
  induction δ with
  | nil => intro _ hv i; cases hv
  | cons kv rest ih =>
    intro hnd hv i
    rw [List.map_cons, List.nodup_cons] at hnd
    rw [dictGet] at hv
    rw [inv_add_cons]
    by_cases hk : kv.1 = k
    · rw [if_pos hk] at hv
      injection hv with hv2
      have hnone : dictGet k rest = none :=
        dictGet_eq_none_of_notkey (hk ▸ hnd.1)
      rw [inv_add_notkey pid k rest hnone]
      subst hv2
      subst hk
      exact updInv_self i pid kv.1 _
    · rw [if_neg hk] at hv
      rw [ih hnd.2 hv]
      rw [updInv_ne _ _ (fun e => hk e.2.symm)]

theorem inv_has_iff (i : InvMap) (pid : String) (need : List (String × ℤ)) :
    inv_has i pid need = true ↔
      ∀ kv ∈ need, kv.2 ≤ i pid kv.1 ∧ 0 ≤ kv.2 := by
  simp [inv_has, List.all_eq_true]

theorem negBundle_keys (b : List (String × ℤ)) :
    (negBundle b).map Prod.fst = b.map Prod.fst := by
  simp [negBundle]

theorem dictGet_negBundle (k : String) (b : List (String × ℤ)) :
    dictGet k (negBundle b) = (dictGet k b).map (fun v => -v) := by
  induction b with
  | nil => rfl
  | cons kv rest ih =>
    rw [negBundle] at *
    by_cases hk : kv.1 = k <;> simp [dictGet, hk, ih]

end GM

/-! Nonnegativity preservation lemmas for the ledger invariant. -/

theorem updInv_nonneg {i : InvMap} (hi : InvNonneg i) {pid k : String} {q : ℤ}
    (hq : 0 ≤ q) : InvNonneg (updInv i pid k q) := by
  intro p j
  unfold updInv
  split
  · exact hq
  · exact hi p j

namespace GM

theorem inv_add_nonneg (pid : String) (δ : List (String × ℤ)) :
    ∀ {i : InvMap}, InvNonneg i → InvNonneg (inv_add i pid δ) := by
  induction δ with
  | nil => intro i hi; exact hi
  | cons kv rest ih =>
    intro i hi
    rw [inv_add_cons]
    exact ih (updInv_nonneg hi (le_max_left 0 _))

theorem mirror_row_nonneg (pid : String) (δ : List (String × ℤ)) :
    ∀ {i : InvMap}, InvNonneg i → InvNonneg (mirror_row pid i δ) := by
  induction δ with
  | nil => intro i hi; exact hi
  | cons kv rest ih =>
    intro i hi
    have hstep : InvNonneg (updInv i pid kv.1
        (if i pid kv.1 + kv.2 ≤ 0 then 0 else i pid kv.1 + kv.2)) := by
      refine updInv_nonneg hi ?_
      split
      · exact le_refl 0
      · omega
    exact ih hstep

theorem mirror_inventory_nonneg (fx : List (String × List (String × ℤ))) :
    ∀ {i : InvMap}, InvNonneg i → InvNonneg (mirror_inventory i fx) := by
  induction fx with
  | nil => intro i hi; exact hi
  | cons pd rest ih =>
    intro i hi
    exact ih (mirror_row_nonneg pd.1 pd.2 hi)

theorem reserve_nonneg (pid txid : String) (items : List (String × ℤ))
    (s : GMState) (hi : InvNonneg s.inventory) :
    InvNonneg (reserve pid txid items s).2.inventory := by
  unfold reserve
  split
  · exact inv_add_nonneg _ _ hi
  · exact hi

theorem release_nonneg (txid : String) (s : GMState)
    (hi : InvNonneg s.inventory) : InvNonneg (release txid s).inventory := by
  unfold release
  split
  · exact inv_add_nonneg _ _ hi
  · exact hi

theorem consume_nonneg (txid : String) (g : Option String) (s : GMState)
    (hi : InvNonneg s.inventory) : InvNonneg (consume txid g s).inventory := by
  unfold consume
  split
  · split
    · exact inv_add_nonneg _ _ hi
    · exact hi
  · exact hi

theorem expireTx_nonneg (txid : String) (s : GMState)
    (hi : InvNonneg s.inventory) : InvNonneg (expireTx txid s).inventory :=
  release_nonneg txid s hi

theorem sweep_step_nonneg (now : ℤ) (s : GMState) (p : String × Offer)
    (hi : InvNonneg s.inventory) : InvNonneg (sweep_step now s p).inventory := by
  unfold sweep_step
  split
  · exact expireTx_nonneg _ _ hi
  · exact hi

theorem sweep_fold_nonneg (now : ℤ) (l : List (String × Offer)) :
    ∀ {s : GMState}, InvNonneg s.inventory →
      InvNonneg (l.foldl (sweep_step now) s).inventory := by
  induction l with
  | nil => intro s hi; exact hi
  | cons p rest ih =>
    intro s hi
    exact ih (sweep_step_nonneg now s p hi)

theorem sweep_nonneg (now : ℤ) (s : GMState) (hi : InvNonneg s.inventory) :
    InvNonneg (sweep_expired_offers now s).inventory :=
  sweep_fold_nonneg now s.pending hi

theorem make_loop_nonneg (pid : String) (items : List (String × ℤ)) :
    ∀ (s : GMState) (eff : List (String × ℤ)), InvNonneg s.inventory →
      InvNonneg (make_loop pid s eff items).2.inventory := by
  induction items with
  | nil => intro s eff hi; exact hi
  | cons kv rest ih =>
    intro s eff hi
    rw [make_loop]
    split
    · exact hi
    · split
      · split
        · exact hi
        · exact ih _ _ (inv_add_nonneg _ _ (inv_add_nonneg _ _ hi))
      · exact hi

theorem do_make_nonneg (pid : String) (items : List (String × ℤ))
    (s : GMState) (hi : InvNonneg s.inventory) :
    InvNonneg (do_make pid items s).2.inventory := by
  unfold do_make
  split
  · exact hi
  · exact make_loop_nonneg pid items s [] hi

theorem do_trade_nonneg (now : ℤ) (pid toPid : String)
    (give want : List (String × ℤ)) (s : GMState)
    (hi : InvNonneg s.inventory) :
    InvNonneg (do_trade now pid toPid give want s).2.inventory := by
  unfold do_trade
  dsimp only
  repeat' split
  all_goals first
    | exact hi
    | exact reserve_nonneg _ _ _ _ hi

theorem commit_trade_nonneg (txid : String) (off : Offer) (acceptor : String)
    (s : GMState) (hi : InvNonneg s.inventory) :
    InvNonneg (commit_trade txid off acceptor s).2.inventory := by
  unfold commit_trade
  dsimp only
  repeat' split
  all_goals first
    | exact hi
    | exact inv_add_nonneg _ _ (consume_nonneg _ _ _ (inv_add_nonneg _ _ hi))

theorem commit_learn_teach_nonneg (txid : String) (off : Offer)
    (acceptor : String) (s : GMState) (hi : InvNonneg s.inventory) :
    InvNonneg (commit_learn_teach txid off acceptor s).2.inventory := by
  unfold commit_learn_teach
  dsimp only
  repeat' split
  all_goals first
    | exact hi
    | exact consume_nonneg _ _ _ hi

theorem do_accept_nonneg (now : ℤ) (pid txid : String) (s : GMState)
    (hi : InvNonneg s.inventory) :
    InvNonneg (do_accept now pid txid s).2.inventory := by
  unfold do_accept
  dsimp only
  repeat' split
  all_goals first
    | exact hi
    | exact release_nonneg _ _ hi
    | exact commit_trade_nonneg _ _ _ _ hi
    | exact commit_learn_teach_nonneg _ _ _ _ hi

theorem do_cancel_nonneg (pid txid : String) (s : GMState)
    (hi : InvNonneg s.inventory) :
    InvNonneg (do_cancel pid txid s).2.inventory := by
  unfold do_cancel
  dsimp only
  repeat' split
  all_goals first
    | exact hi
    | exact release_nonneg _ _ hi

theorem defense_item_if_active_inventory (now : ℤ) (pid : String)
    (s : GMState) : (defense_item_if_active now pid s).2.inventory = s.inventory := by
  unfold defense_item_if_active
  repeat' split
  all_goals rfl

theorem do_attack_inventory (t : CombatTable) (now : ℤ)
    (pid target weapon : String) (s : GMState) :
    (do_attack t now pid target weapon s).2.inventory = s.inventory := by
  unfold do_attack
  dsimp only
  repeat' split
  all_goals first
    | rfl
    | exact defense_item_if_active_inventory now target s

theorem do_counter_nonneg (t : CombatTable) (now : ℤ)
    (pid target item : String) (s : GMState) (hi : InvNonneg s.inventory) :
    InvNonneg (do_counter t now pid target item s).2.inventory := by
  unfold do_counter
  dsimp only
  repeat' split
  all_goals exact hi

theorem do_learn_teach_nonneg (now : ℤ) (pid : String) (is_learn : Bool)
    (toPid : String) (power : String × ℤ) (pay : List (String × ℤ))
    (s : GMState) (hi : InvNonneg s.inventory) :
    InvNonneg (do_learn_teach now pid is_learn toPid power pay s).2.inventory := by
  unfold do_learn_teach
  dsimp only
  repeat' split
  all_goals first
    | exact hi
    | exact reserve_nonneg _ _ _ _ hi

theorem process_nonneg (t : CombatTable) (now : ℤ) (pid : String) (cmd : Cmd)
    (s : GMState) (hi : InvNonneg s.inventory) :
    InvNonneg (process_structured_cmd t now pid cmd s).2.inventory := by
  have hs : InvNonneg (sweep_expired_offers now s).inventory :=
    sweep_nonneg now s hi
  unfold process_structured_cmd
  cases cmd with
  | make items => exact do_make_nonneg _ _ _ hs
  | rep target delta => exact hs
  | trade toPid give want => exact do_trade_nonneg _ _ _ _ _ _ hs
  | accept txid => exact do_accept_nonneg _ _ _ _ hs
  | cancel txid => exact do_cancel_nonneg _ _ _ hs
  | attack target weapon => rw [do_attack_inventory]; exact hs
  | counter target item => exact do_counter_nonneg _ _ _ _ _ _ hs
  | learn toPid power pay => exact do_learn_teach_nonneg _ _ _ _ _ _ _ hs
  | teach toPid power pay => exact do_learn_teach_nonneg _ _ _ _ _ _ _ hs

theorem handle_overlay_nonneg (t : CombatTable) (now : ℤ) (pid : String)
    (cmd : Cmd) (s : GMState) (hi : InvNonneg s.inventory) :
    InvNonneg (handle_overlay_cmd t now pid cmd s).2.inventory :=
  mirror_inventory_nonneg _ (process_nonneg t now pid cmd s hi)

end GM

namespace PlayerDB

theorem db_inv_add_nonneg {i : InvMap} (hi : InvNonneg i) (pid item : String)
    (delta : ℤ) : InvNonneg (inv_add i pid item delta) :=
  updInv_nonneg hi (le_max_left 0 _)

end PlayerDB

/-! Sweep characterisation and state-field preservation lemmas. -/

namespace GM

theorem release_not_reserved (txid : String) (st : GMState)
    (h : dictGet txid st.reserved = none) : release txid st = st := by
  unfold release
  rw [h]

theorem release_reserved_none (txid : String) (st : GMState) :
    dictGet txid (release txid st).reserved = none := by
  unfold release
  cases h : dictGet txid st.reserved with
  | none => simp only [h]
  | some r => simp only [h]; exact dictGet_dictPop_self txid st.reserved

theorem release_pending (txid : String) (st : GMState) :
    (release txid st).pending = st.pending := by
  unfold release
  split <;> rfl

theorem release_players (txid : String) (st : GMState) :
    (release txid st).players = st.players := by
  unfold release
  split <;> rfl

theorem release_defense (txid : String) (st : GMState) :
    (release txid st).defense = st.defense := by
  unfold release
  split <;> rfl

theorem expireTx_players (txid : String) (st : GMState) :
    (expireTx txid st).players = st.players :=
  release_players txid st

theorem expireTx_defense (txid : String) (st : GMState) :
    (expireTx txid st).defense = st.defense :=
  release_defense txid st

theorem expireTx_idem (txid : String) (st : GMState) :
    expireTx txid (expireTx txid st) = expireTx txid st := by
  have hres : dictGet txid (expireTx txid st).reserved = none :=
    release_reserved_none txid st
  show (let st1 := release txid (expireTx txid st);
        { st1 with pending := dictPop txid st1.pending }) = expireTx txid st
  rw [release_not_reserved _ _ hres]
  dsimp only
  have hpend : dictPop txid (expireTx txid st).pending = (expireTx txid st).pending :=
    dictPop_idem txid (release txid st).pending
  rw [hpend]

theorem sweep_step_players (now : ℤ) (st : GMState) (p : String × Offer) :
    (sweep_step now st p).players = st.players := by
  unfold sweep_step
  split
  · exact expireTx_players _ _
  · rfl

theorem sweep_step_defense (now : ℤ) (st : GMState) (p : String × Offer) :
    (sweep_step now st p).defense = st.defense := by
  unfold sweep_step
  split
  · exact expireTx_defense _ _
  · rfl

theorem sweep_fold_players (now : ℤ) (l : List (String × Offer)) :
    ∀ st : GMState, (l.foldl (sweep_step now) st).players = st.players := by
  induction l with
  | nil => intro st; rfl
  | cons p rest ih =>
    intro st
    rw [List.foldl_cons, ih, sweep_step_players]

theorem sweep_fold_defense (now : ℤ) (l : List (String × Offer)) :
    ∀ st : GMState, (l.foldl (sweep_step now) st).defense = st.defense := by
  induction l with
  | nil => intro st; rfl
  | cons p rest ih =>
    intro st
    rw [List.foldl_cons, ih, sweep_step_defense]

theorem sweep_players (now : ℤ) (s : GMState) :
    (sweep_expired_offers now s).players = s.players :=
  sweep_fold_players now s.pending s

theorem sweep_defense (now : ℤ) (s : GMState) :
    (sweep_expired_offers now s).defense = s.defense :=
  sweep_fold_defense now s.pending s

theorem sweep_fold_only (now : ℤ) (txid : String) :
    ∀ (l : List (String × Offer)) (st : GMState),
      (∀ p ∈ l, p.1 = txid ∨ ¬ (now > p.2.ts + p.2.ttl)) →
      l.foldl (sweep_step now) st =
        if l.any (fun p => decide (p.1 = txid) && decide (now > p.2.ts + p.2.ttl))
        then expireTx txid st else st := by
  intro l
  induction l with
  | nil => intro st _; rfl
  | cons p rest ih =>
    intro st h
    have hp := h p (List.mem_cons_self p rest)
    have hrest : ∀ q ∈ rest, q.1 = txid ∨ ¬ (now > q.2.ts + q.2.ttl) :=
      fun q hq => h q (List.mem_cons_of_mem p hq)
    rw [List.foldl_cons, List.any_cons]
    by_cases hexp : now > p.2.ts + p.2.ttl
    · have hkey : p.1 = txid := by
        rcases hp with h1 | h2
        · exact h1
        · exact absurd hexp h2
      have hcond : (decide (p.1 = txid) && decide (now > p.2.ts + p.2.ttl)) = true := by
        simp [hkey, hexp]
      rw [show sweep_step now st p = expireTx txid st by
        rw [sweep_step, if_pos hexp, hkey]]
      rw [ih (expireTx txid st) hrest, hcond, Bool.true_or, if_pos rfl]
      split
      · exact expireTx_idem txid st
      · rfl
    · have hcond : (decide (p.1 = txid) && decide (now > p.2.ts + p.2.ttl)) = false := by
        simp [hexp]
      rw [show sweep_step now st p = st by rw [sweep_step, if_neg hexp]]
      rw [ih st hrest, hcond, Bool.false_or]

theorem sweep_eq_expire (now : ℤ) (txid : String) (s : GMState) (off : Offer)
    (hget : dictGet txid s.pending = some off) (hexp : now > off.ts + off.ttl)
    (honly : ∀ p ∈ s.pending, p.1 = txid ∨ ¬ (now > p.2.ts + p.2.ttl)) :
    sweep_expired_offers now s = expireTx txid s := by
  unfold sweep_expired_offers
  rw [sweep_fold_only now txid s.pending s honly]
  have hany : s.pending.any
      (fun p => decide (p.1 = txid) && decide (now > p.2.ts + p.2.ttl)) = true :=
    List.any_eq_true.mpr ⟨(txid, off), dictGet_mem hget, by simp [hexp]⟩
  rw [hany, if_pos rfl]

theorem sweep_id (now : ℤ) (s : GMState)
    (h : ∀ p ∈ s.pending, ¬ (now > p.2.ts + p.2.ttl)) :
    sweep_expired_offers now s = s := by
  unfold sweep_expired_offers
  rw [sweep_fold_only now "" s.pending s (fun p hp => Or.inr (h p hp))]
  have hany : s.pending.any
      (fun p => decide (p.1 = "") && decide (now > p.2.ts + p.2.ttl)) = false := by
    rw [List.any_eq_false]
    intro p hp
    simp [h p hp]
  rw [hany]
  rfl

end GM

namespace GM

theorem do_accept_unknown (now : ℤ) (pid txid : String) (s : GMState)
    (h : dictGet txid s.pending = none) :
    do_accept now pid txid s =
      ({ status := "error", reason := some "unknown_txid",
         from_ := some pid }, s) := by
  unfold do_accept
  rw [h]

theorem release_inventory_of_get (txid : String) (s : GMState) (res : Resv)
    (h : dictGet txid s.reserved = some res) :
    (release txid s).inventory = inv_add s.inventory res.pid res.items := by
  unfold release
  simp only [h]

end GM

/-! The claims. -/

/-- C1: in the two-actor scenario (A holds bread=1, B holds wood=1, both in
range, no other offers), the trade command escrows A's bread (spendable
balance 0) and the accept commits the swap and removes the offer and its
reservation; but after the reply's inventory effects are applied by the
in-memory mirror of agent.py _apply_effects_to_db, the final in-memory
balances are A.wood=2 and B.bread=2, not the claimed A.wood=1, B.bread=1:
gm_cmds already mutated the same in-memory map the mirror adds the deltas
onto, so every delta applies twice.  This evaluation of the embedded
pipeline at the failing input exhibits the code bug. -/
theorem trade_accept_mirror_double_apply :
    tradeStep1.1.status = "accepted" ∧ tradeStep1.1.txid = some "t-1" ∧
    tradeStep1.2.inventory "A" "bread" = 0 ∧
    tradeStep2.1.status = "matched" ∧
    tradeStep2.2.inventory "A" "wood" = 2 ∧
    tradeStep2.2.inventory "A" "bread" = 0 ∧
    tradeStep2.2.inventory "B" "bread" = 2 ∧
    tradeStep2.2.inventory "B" "wood" = 0 ∧
    dictGet "t-1" tradeStep2.2.pending = none ∧
    dictGet "t-1" tradeStep2.2.reserved = none := by
  decide

open GM in
/-- C2 counterexample: with offer t-1 pending (created at 0, TTL 5000) and
its reservation held, an accept processed at 6000 ms does not reply
rejected/expired: the start-of-processing sweep already removed the
expired offer, so the dispatcher replies error/unknown_txid. -/
theorem accept_expired_reply_cex :
    (process_structured_cmd emptyTable 6000 "B" (.accept "t-1") sExpired).1.status
      = "error" ∧
    (process_structured_cmd emptyTable 6000 "B" (.accept "t-1") sExpired).1.reason
      = some "unknown_txid" ∧
    ¬ ((process_structured_cmd emptyTable 6000 "B" (.accept "t-1") sExpired).1.status
        = "rejected" ∧
       (process_structured_cmd emptyTable 6000 "B" (.accept "t-1") sExpired).1.reason
        = some "expired") := by
  decide

open GM in
/-- C2 (amended): for every pending offer whose TTL has elapsed when an
accept naming its transaction id is processed (and no other pending offer
has expired), the start-of-processing sweep releases the escrowed bundle
back to the proposer exactly and removes the offer and its reservation,
and the accept then replies status error with reason unknown_txid (the
rejected/expired branch of the accept handler is reachable only if the
offer expires between the sweep's clock read and the handler's). -/
theorem accept_expired_swept (t : CombatTable) (now : ℤ) (pid txid : String)
    (s : GMState) (off : Offer) (res : Resv)
    (hget : dictGet txid s.pending = some off)
    (hexp : now > off.ts + off.ttl)
    (honly : ∀ p ∈ s.pending, p.1 = txid ∨ ¬ (now > p.2.ts + p.2.ttl))
    (hres : dictGet txid s.reserved = some res)
    (hnn : ∀ kv ∈ res.items, 0 ≤ kv.2)
    (hnd : (res.items.map Prod.fst).Nodup)
    (hinv : ∀ k, 0 ≤ s.inventory res.pid k) :
    (process_structured_cmd t now pid (.accept txid) s).1.status = "error" ∧
    (process_structured_cmd t now pid (.accept txid) s).1.reason
      = some "unknown_txid" ∧
    dictGet txid (process_structured_cmd t now pid (.accept txid) s).2.pending
      = none ∧
    dictGet txid (process_structured_cmd t now pid (.accept txid) s).2.reserved
      = none ∧
    ∀ k, (process_structured_cmd t now pid (.accept txid) s).2.inventory res.pid k
      = s.inventory res.pid k + (dictGet k res.items).getD 0 := by
  have hsw : sweep_expired_offers now s = expireTx txid s :=
    sweep_eq_expire now txid s off hget hexp honly
  have hpend : (expireTx txid s).pending = dictPop txid s.pending := by
    show dictPop txid (release txid s).pending = _
    rw [release_pending]
  have hgetpend : dictGet txid (expireTx txid s).pending = none := by
    rw [hpend]
    exact dictGet_dictPop_self _ _
  have hrun : process_structured_cmd t now pid (.accept txid) s
      = ({ status := "error", reason := some "unknown_txid",
           from_ := some pid }, expireTx txid s) := by
    show do_accept now pid txid (sweep_expired_offers now s) = _
    rw [hsw]
    exact do_accept_unknown now pid txid (expireTx txid s) hgetpend
  rw [hrun]
  refine ⟨rfl, rfl, hgetpend, release_reserved_none txid s, ?_⟩
  intro k
  show (release txid s).inventory res.pid k = _
  rw [release_inventory_of_get txid s res hres]
  cases hg : dictGet k res.items with
  | none =>
    rw [inv_add_notkey res.pid k res.items hg]
    simp
  | some v =>
    rw [inv_add_key res.pid k v res.items hnd hg]
    have hv : 0 ≤ v := hnn (k, v) (dictGet_mem hg)
    have ha := hinv k
    simp only [Option.getD_some]
    exact max_eq_right (by omega)

open GM in
/-- C2 witness: the amended theorem applied to the concrete expired-offer
state; the escrowed bread comes back to proposer A exactly. -/
theorem accept_expired_swept_witness :
    dictGet "t-1" sExpiredZ.pending = some offExpired ∧
    (6000 : ℤ) > offExpired.ts + offExpired.ttl ∧
    dictGet "t-1" sExpiredZ.reserved = some ⟨"A", [("bread", 1)]⟩ ∧
    (process_structured_cmd emptyTable 6000 "B" (.accept "t-1") sExpiredZ).1.status
      = "error" ∧
    (process_structured_cmd emptyTable 6000 "B" (.accept "t-1") sExpiredZ).1.reason
      = some "unknown_txid" ∧
    dictGet "t-1"
      (process_structured_cmd emptyTable 6000 "B" (.accept "t-1") sExpiredZ).2.reserved
      = none ∧
    (process_structured_cmd emptyTable 6000 "B" (.accept "t-1") sExpiredZ).2.inventory
      "A" "bread" = 1 := by
  have h := accept_expired_swept emptyTable 6000 "B" "t-1" sExpiredZ offExpired
    ⟨"A", [("bread", 1)]⟩ (by decide) (by decide) (by decide) (by decide)
    (by decide) (by decide) (fun k => le_refl 0)
  exact ⟨by decide, by decide, by decide, h.1, h.2.1, h.2.2.2.1,
    (h.2.2.2.2 "bread").trans (by decide)⟩

open GM in
/-- C3 counterexample: an accept naming the never-issued transaction id
t-99, processed while an unrelated expired offer t-1 is pending, replies
error/unknown_txid but does mutate state: the sweep releases t-1's
reservation (A's bread quantity changes from 0 to 1) and removes the t-1
offer, contradicting the claim that nothing is mutated. -/
theorem accept_unknown_sweep_mutates_cex :
    (process_structured_cmd emptyTable 6000 "B" (.accept "t-99") sExpired).1.status
      = "error" ∧
    (process_structured_cmd emptyTable 6000 "B" (.accept "t-99") sExpired).1.reason
      = some "unknown_txid" ∧
    sExpired.inventory "A" "bread" = 0 ∧
    (process_structured_cmd emptyTable 6000 "B" (.accept "t-99") sExpired).2.inventory
      "A" "bread" = 1 ∧
    dictGet "t-1" sExpired.pending = some offExpired ∧
    dictGet "t-1"
      (process_structured_cmd emptyTable 6000 "B" (.accept "t-99") sExpired).2.pending
      = none := by
  decide

open GM in
/-- C3 (amended): an accept whose transaction id is not pending (never
issued, or already consumed by a successful commit, which removes the
offer) replies status error with reason unknown_txid; provided no pending
offer has expired at processing time (so the start-of-processing sweep
does nothing), the state is returned completely unchanged - in
particular a second accept of an already committed transaction id never
applies a second time. -/
theorem accept_unknown_txid_noop (t : CombatTable) (now : ℤ)
    (pid txid : String) (s : GMState)
    (hnoexp : ∀ p ∈ s.pending, ¬ (now > p.2.ts + p.2.ttl))
    (hunk : dictGet txid s.pending = none) :
    process_structured_cmd t now pid (.accept txid) s =
      ({ status := "error", reason := some "unknown_txid",
         from_ := some pid }, s) := by
  have hsw := sweep_id now s hnoexp
  show do_accept now pid txid (sweep_expired_offers now s) = _
  rw [hsw]
  exact do_accept_unknown now pid txid s hunk

open GM in
/-- C3 witness: the amended theorem applied to a state holding one live
(unexpired) pending offer, with an accept naming an unknown id. -/
theorem accept_unknown_txid_noop_witness :
    (∀ p ∈ sExpiredZ.pending, ¬ ((100 : ℤ) > p.2.ts + p.2.ttl)) ∧
    dictGet "t-99" sExpiredZ.pending = none ∧
    process_structured_cmd emptyTable 100 "B" (.accept "t-99") sExpiredZ =
      ({ status := "error", reason := some "unknown_txid",
         from_ := some "B" }, sExpiredZ) :=
  ⟨by decide, by decide,
   accept_unknown_txid_noop emptyTable 100 "B" "t-99" sExpiredZ
     (by decide) (by decide)⟩

open GM in
/-- C4: every inventory mutation keeps every stored quantity nonnegative:
the add primitives (gm_cmds.inv_add and db_models.inv_add) clamp at zero
for every delta, reserve/release/consume preserve nonnegativity, and so
does a full dispatched command followed by the in-memory effects mirror
(covering make, trade, accept commits, cancel, learn/teach, attack,
counter, the expiry sweep and effect mirroring). -/
theorem ledger_nonneg_invariant :
    (∀ (i : InvMap) (pid : String) (δ : List (String × ℤ)),
        InvNonneg i → InvNonneg (inv_add i pid δ)) ∧
    (∀ (i : InvMap) (pid item : String) (d : ℤ),
        InvNonneg i → InvNonneg (PlayerDB.inv_add i pid item d)) ∧
    (∀ (pid txid : String) (items : List (String × ℤ)) (s : GMState),
        InvNonneg s.inventory →
          InvNonneg (reserve pid txid items s).2.inventory) ∧
    (∀ (txid : String) (s : GMState),
        InvNonneg s.inventory → InvNonneg (release txid s).inventory) ∧
    (∀ (txid : String) (g : Option String) (s : GMState),
        InvNonneg s.inventory → InvNonneg (consume txid g s).inventory) ∧
    (∀ (t : CombatTable) (now : ℤ) (pid : String) (cmd : Cmd) (s : GMState),
        InvNonneg s.inventory →
          InvNonneg (handle_overlay_cmd t now pid cmd s).2.inventory) :=
  ⟨fun _ pid δ hi => inv_add_nonneg pid δ hi,
   fun _ pid item d hi => PlayerDB.db_inv_add_nonneg hi pid item d,
   fun pid txid items s hi => reserve_nonneg pid txid items s hi,
   fun txid s hi => release_nonneg txid s hi,
   fun txid g s hi => consume_nonneg txid g s hi,
   fun t now pid cmd s hi => handle_overlay_nonneg t now pid cmd s hi⟩

open GM in
/-- C4 witness: the invariant holds across the concrete trade scenario
step (dispatch plus mirror) starting from the scenario inventory. -/
theorem ledger_nonneg_invariant_witness :
    InvNonneg sTrade.inventory ∧
    InvNonneg (handle_overlay_cmd emptyTable 0 "A"
      (.trade "B" [("bread", 1)] [("wood", 1)]) sTrade).2.inventory := by
  have h0 : InvNonneg sTrade.inventory := by
    intro p k
    show (0:ℤ) ≤ if p = "A" ∧ k = "bread" then 1
      else if p = "B" ∧ k = "wood" then 1 else 0
    split_ifs <;> omega
  exact ⟨h0, ledger_nonneg_invariant.2.2.2.2.2 emptyTable 0 "A"
    (.trade "B" [("bread", 1)] [("wood", 1)]) sTrade h0⟩

open GM in
/-- C5: a successful reserve followed by release of the same transaction
id restores every per-item quantity of the reserving actor to its value
from before the reserve (bundle keys are unique, as in a Python dict). -/
theorem reserve_release_roundtrip (s : GMState) (pid txid : String)
    (items : List (String × ℤ))
    (hnd : (items.map Prod.fst).Nodup)
    (hres : (reserve pid txid items s).1 = true) :
    ∀ k, (release txid (reserve pid txid items s).2).inventory pid k
      = s.inventory pid k := by
  have hhas : inv_has s.inventory pid items = true := by
    by_contra hc
    rw [reserve, if_neg hc] at hres
    cases hres
  have hfacts := (inv_has_iff s.inventory pid items).mp hhas
  have hstate : (reserve pid txid items s).2 = { s with
      inventory := inv_add s.inventory pid (negBundle items),
      reserved := dictSet txid ⟨pid, items⟩ s.reserved } := by
    rw [reserve, if_pos hhas]
  intro k
  rw [hstate]
  rw [release_inventory_of_get txid _ ⟨pid, items⟩
    (dictGet_dictSet_self txid ⟨pid, items⟩ s.reserved)]
  dsimp only
  have hndneg : ((negBundle items).map Prod.fst).Nodup := by
    rw [negBundle_keys]; exact hnd
  cases hg : dictGet k items with
  | none =>
    have hgneg : dictGet k (negBundle items) = none := by
      rw [dictGet_negBundle, hg]; rfl
    rw [inv_add_notkey pid k items hg, inv_add_notkey pid k (negBundle items) hgneg]
  | some v =>
    have hkv := hfacts (k, v) (dictGet_mem hg)
    have hk1 : v ≤ s.inventory pid k := hkv.1
    have hk2 : (0 : ℤ) ≤ v := hkv.2
    have hgneg : dictGet k (negBundle items) = some (-v) := by
      rw [dictGet_negBundle, hg]; rfl
    rw [inv_add_key pid k v items hnd hg,
        inv_add_key pid k (-v) (negBundle items) hndneg hgneg]
    have h1 : max 0 (s.inventory pid k + -v) = s.inventory pid k + -v :=
      max_eq_right (by omega)
    rw [h1]
    have h2 : s.inventory pid k + -v + v = s.inventory pid k := by omega
    rw [h2]
    exact max_eq_right (by omega)

open GM in
/-- C5 witness: reserving two wood out of five and releasing restores the
quantity to five. -/
theorem reserve_release_roundtrip_witness :
    ((([("wood", (2:ℤ))]).map Prod.fst).Nodup) ∧
    (reserve "A" "t-7" [("wood", 2)]
      { inventory := woodInv, reserved := [], pending := [], defense := [],
        players := fun _ => none, nextTx := 1 }).1 = true ∧
    (release "t-7" (reserve "A" "t-7" [("wood", 2)]
      { inventory := woodInv, reserved := [], pending := [], defense := [],
        players := fun _ => none, nextTx := 1 }).2).inventory "A" "wood" = 5 := by
  refine ⟨by decide, by decide, ?_⟩
  have h := reserve_release_roundtrip
    { inventory := woodInv, reserved := [], pending := [], defense := [],
      players := fun _ => none, nextTx := 1 }
    "A" "t-7" [("wood", 2)] (by decide) (by decide)
  exact (h "wood").trans (by decide)

open PlayerHelpers in
/-- C6: the watermark check reports a duplicate exactly when the sequence
number is at most the stored watermark for (consumer, actor) (absent
watermarks read as the initial -1); otherwise only the (consumer, actor)
watermark is raised to the sequence number, so watermarks of distinct
consumers (and distinct actors) are fully independent. -/
theorem seq_watermark_spec (reg : SeqReg) (consumer pid : String) (sq : ℤ)
    (c2 p2 : String) :
    ((seen reg consumer pid sq).1 = true ↔ sq ≤ reg consumer pid) ∧
    ((seen reg consumer pid sq).2 c2 p2
      = if c2 = consumer ∧ p2 = pid ∧ reg consumer pid < sq
        then sq else reg c2 p2) := by
  unfold seen
  by_cases h : sq ≤ reg consumer pid
  · rw [if_pos h]
    refine ⟨by simp [h], ?_⟩
    exact (if_neg fun hcon => absurd hcon.2.2 (not_lt.mpr h)).symm
  · rw [if_neg h]
    constructor
    · constructor
      · intro hfalse; cases hfalse
      · intro hle; exact absurd hle h
    · show (if c2 = consumer ∧ p2 = pid then sq else reg c2 p2) = _
      by_cases hc : c2 = consumer ∧ p2 = pid
      · rw [if_pos hc, if_pos ⟨hc.1, hc.2, lt_of_not_le h⟩]
      · rw [if_neg hc, if_neg (fun hcon => hc ⟨hcon.1, hcon.2.1⟩)]

theorem pyRound_ofInt (n : ℤ) : pyRound (n : ℚ) = n := by
  unfold pyRound
  rw [Int.floor_intCast]
  dsimp only
  rw [sub_self]
  rw [if_pos (by norm_num)]

namespace GM

theorem in_range_congr_players (s1 s2 : GMState) (a b : String)
    (h : s1.players = s2.players) : in_range s1 a b = in_range s2 a b := by
  unfold in_range
  rw [h]

theorem defense_item_fst_congr (now : ℤ) (pid : String) (s1 s2 : GMState)
    (h : s1.defense = s2.defense) :
    (defense_item_if_active now pid s1).1 = (defense_item_if_active now pid s2).1 := by
  unfold defense_item_if_active
  rw [h]
  cases dictGet pid s2.defense with
  | none => rfl
  | some slot =>
    by_cases hexp : now > slot.until_ <;> simp [hexp]

theorem do_attack_reply (t : CombatTable) (now : ℤ)
    (pid target weapon : String) (s : GMState)
    (hin : in_range s pid target = true)
    (hw : ¬ (t.req_attack = true ∧ attack_tag t weapon = none)) :
    (do_attack t now pid target weapon s).1 =
      { status := "matched", kind := some "attack", from_ := some pid,
        effects := { health := [(target, -(max 0 (pyRound (base_damage t weapon *
                       opposition_mult t ((attack_tag t weapon).getD "none")
                         (defense_tag t (defense_item_if_active now target s).1)))))],
                     combat := some ((attack_tag t weapon).getD "none",
                       defense_tag t (defense_item_if_active now target s).1,
                       opposition_mult t ((attack_tag t weapon).getD "none")
                         (defense_tag t (defense_item_if_active now target s).1)) } } := by
  unfold do_attack
  rw [if_neg (fun hc => hc hin)]
  dsimp only
  rw [if_neg hw]

theorem do_attack_reply_rejected (t : CombatTable) (now : ℤ)
    (pid target weapon : String) (s : GMState)
    (hin : in_range s pid target = true)
    (hreq : t.req_attack = true ∧ attack_tag t weapon = none) :
    (do_attack t now pid target weapon s).1 =
      { status := "rejected", reason := some "invalid_weapon",
        from_ := some pid } := by
  unfold do_attack
  rw [if_neg (fun hc => hc hin)]
  dsimp only
  rw [if_pos hreq]

end GM

open GM in
/-- C7: an in-range attack (with a weapon acceptable to the requires flag)
replies matched with a health effect on the defender of exactly
minus max(0, round(base_damage(weapon) * multiplier(attack tag or none,
defense tag))), where base_damage falls back to the table default,
the defense tag comes from the defender's active defense window (or the
literal "none"), the multiplier defaults to 1 when absent from the
opposition matrix, and the combat record reports the resolved tags and
multiplier. -/
theorem attack_damage_formula (t : CombatTable) (now : ℤ)
    (pid target weapon : String) (s : GMState)
    (hin : in_range s pid target = true)
    (hw : ¬ (t.req_attack = true ∧ attack_tag t weapon = none)) :
    (process_structured_cmd t now pid (.attack target weapon) s).1.status
      = "matched" ∧
    (process_structured_cmd t now pid (.attack target weapon) s).1.effects.health
      = [(target, -(max 0 (pyRound (base_damage t weapon *
          opposition_mult t ((attack_tag t weapon).getD "none")
            (defense_tag t (defense_item_if_active now target s).1)))))] ∧
    (process_structured_cmd t now pid (.attack target weapon) s).1.effects.combat
      = some ((attack_tag t weapon).getD "none",
          defense_tag t (defense_item_if_active now target s).1,
          opposition_mult t ((attack_tag t weapon).getD "none")
            (defense_tag t (defense_item_if_active now target s).1)) := by
  have hpl := sweep_players now s
  have hdf := sweep_defense now s
  have hin' : in_range (sweep_expired_offers now s) pid target = true := by
    rw [in_range_congr_players _ s _ _ hpl]
    exact hin
  have hd' : (defense_item_if_active now target (sweep_expired_offers now s)).1
      = (defense_item_if_active now target s).1 :=
    defense_item_fst_congr now target _ s hdf
  have hrep : (process_structured_cmd t now pid (.attack target weapon) s).1
      = (do_attack t now pid target weapon (sweep_expired_offers now s)).1 := rfl
  rw [hrep, do_attack_reply t now pid target weapon _ hin' hw, hd']
  exact ⟨rfl, rfl, rfl⟩

open GM in
/-- C7 witness: with the spec-modelled table (knife: attack tag pierce,
damage 5; opposition pierce versus none = 1), an in-range knife attack on
an undefended target yields the health effect -5. -/
theorem attack_damage_formula_witness :
    in_range sAttack "alice" "bob" = true ∧
    ¬ (specKnifeTable.req_attack = true ∧
       attack_tag specKnifeTable "knife" = none) ∧
    (process_structured_cmd specKnifeTable 0 "alice" (.attack "bob" "knife")
      sAttack).1.effects.health = [("bob", -5)] := by
  have h := attack_damage_formula specKnifeTable 0 "alice" "bob" "knife"
    sAttack (by decide) (by decide)
  refine ⟨by decide, by decide, ?_⟩
  rw [h.2.1]
  have hval : base_damage specKnifeTable "knife" *
      opposition_mult specKnifeTable
        ((attack_tag specKnifeTable "knife").getD "none")
        (defense_tag specKnifeTable
          (defense_item_if_active 0 "bob" sAttack).1) = (5 : ℚ) := by
    show (5 : ℚ) * 1 = 5
    exact mul_one 5
  rw [hval]
  have h5 : pyRound (5 : ℚ) = 5 := by
    have hcast : ((5 : ℤ) : ℚ) = (5 : ℚ) := by norm_num
    have := pyRound_ofInt 5
    rw [hcast] at this
    exact this
  rw [h5]
  decide

open GM in
/-- C8: two runs of the combat resolver with the same weapon, the same
rule table, and the same resolved active defense item of the defender (or
none in both runs), both in range, produce the same reply status, the same
resolved combat record (attack tag, defense tag, multiplier), and the same
health delta, whatever else (inventories, offers, clocks, positions)
differs between the two states. -/
theorem attack_two_run_determinism (t : CombatTable) (now1 now2 : ℤ)
    (a1 t1 a2 t2 weapon : String) (s1 s2 : GMState) (d : Option String)
    (hin1 : in_range s1 a1 t1 = true) (hin2 : in_range s2 a2 t2 = true)
    (hd1 : (defense_item_if_active now1 t1 s1).1 = d)
    (hd2 : (defense_item_if_active now2 t2 s2).1 = d) :
    (do_attack t now1 a1 t1 weapon s1).1.status
      = (do_attack t now2 a2 t2 weapon s2).1.status ∧
    (do_attack t now1 a1 t1 weapon s1).1.effects.combat
      = (do_attack t now2 a2 t2 weapon s2).1.effects.combat ∧
    (do_attack t now1 a1 t1 weapon s1).1.effects.health.map Prod.snd
      = (do_attack t now2 a2 t2 weapon s2).1.effects.health.map Prod.snd := by
  by_cases hreq : t.req_attack = true ∧ attack_tag t weapon = none
  · rw [do_attack_reply_rejected t now1 a1 t1 weapon s1 hin1 hreq,
        do_attack_reply_rejected t now2 a2 t2 weapon s2 hin2 hreq]
    exact ⟨rfl, rfl, rfl⟩
  · rw [do_attack_reply t now1 a1 t1 weapon s1 hin1 hreq,
        do_attack_reply t now2 a2 t2 weapon s2 hin2 hreq, hd1, hd2]
    exact ⟨rfl, rfl, rfl⟩

open GM in
/-- C8 witness: the determinism theorem applied to two states that differ
in inventories, pending offers, clocks and positions but agree on the
weapon, table, and (absent) active defense of the defender. -/
theorem attack_two_run_determinism_witness :
    in_range sAttack "alice" "bob" = true ∧
    in_range sAttackB "alice" "bob" = true ∧
    (defense_item_if_active 0 "bob" sAttack).1 = none ∧
    (defense_item_if_active 50 "bob" sAttackB).1 = none ∧
    (do_attack emptyTable 0 "alice" "bob" "knife" sAttack).1.effects.combat
      = (do_attack emptyTable 50 "alice" "bob" "knife" sAttackB).1.effects.combat :=
  ⟨by decide, by decide, by decide, by decide,
   (attack_two_run_determinism emptyTable 0 50 "alice" "bob" "alice" "bob"
     "knife" sAttack sAttackB none (by decide) (by decide) (by decide)
     (by decide)).2.1⟩

open PlayerDB in
/-- C9: every failing apply_recipe leaves the inventory completely
unchanged (rejections and the transaction rollback are all-or-nothing);
in particular the craft scenario - recipe mk_plank requiring wood 2 and
producing plank 1 against an inventory holding wood 1 - is rejected with
reason missing_requirements, crafts nothing, and leaves wood at 1. -/
theorem recipe_all_or_nothing :
    (∀ (i : InvMap) (pid : String) (r : RecipeSpec),
        (apply_recipe i pid r).1.1 = false → (apply_recipe i pid r).2 = i) ∧
    (handle_craft craftInv "p1" "mk_plank" 1 plankRecipes).1.status
      = "rejected" ∧
    (handle_craft craftInv "p1" "mk_plank" 1 plankRecipes).1.reason
      = some "missing_requirements" ∧
    (handle_craft craftInv "p1" "mk_plank" 1 plankRecipes).1.crafted = 0 ∧
    (handle_craft craftInv "p1" "mk_plank" 1 plankRecipes).2 "p1" "wood"
      = 1 := by
  refine ⟨?_, by decide, by decide, by decide, by decide⟩
  intro i pid r h
  unfold apply_recipe at h ⊢
  by_cases c1 : (r.consumes.any (fun kv => decide (kv.2 < 0))
      || r.produces.any (fun kv => decide (kv.2 < 0))) = true
  · rw [if_pos c1]
  · rw [if_neg c1] at h ⊢
    by_cases c2 : ¬ inv_has i pid r.requires = true
    · rw [if_pos c2]
    · rw [if_neg c2, if_neg c2] at h ⊢
      cases hc : consume_loop pid i r.consumes with
      | none => rfl
      | some i2 =>
        rw [hc] at h
        simp at h

open PlayerDB in
/-- C9 witness: the all-or-nothing theorem applied at the scenario input:
the application fails and the inventory function is returned unchanged. -/
theorem recipe_all_or_nothing_witness :
    (apply_recipe craftInv "p1"
      ⟨[("wood", 2)], [("wood", 2)], [("plank", 1)]⟩).1.1 = false ∧
    (apply_recipe craftInv "p1"
      ⟨[("wood", 2)], [("wood", 2)], [("plank", 1)]⟩).2 = craftInv :=
  ⟨by decide,
   recipe_all_or_nothing.1 craftInv "p1"
     ⟨[("wood", 2)], [("wood", 2)], [("plank", 1)]⟩ (by decide)⟩

/-- C10 counterexample: on a bundle requesting wood -1 against five wood
in stock, the in-memory ledger's inv_has (gm_cmds) returns false, while
the claim's reading (negative requests trivially satisfied, as the
DB-backed db_models.inv_has behaves) returns true. -/
theorem inv_has_negative_request_cex :
    GM.inv_has woodInv "A" [("wood", -1)] = false ∧
    claimHas woodInv "A" [("wood", -1)] = true ∧
    PlayerDB.inv_has woodInv "A" [("wood", -1)] = true := by
  decide

/-- C10 (amended): the in-memory gm_cmds.inv_has returns true iff every
requested quantity is nonnegative and covered by the stored quantity (a
zero request is trivially satisfied, but any negative request makes the
check fail); the DB-backed db_models.inv_has instead treats every request
of zero or less as trivially satisfied, exactly as the claim words it. -/
theorem inv_has_amended :
    ∀ (i : InvMap) (pid : String) (need : List (String × ℤ)),
      (GM.inv_has i pid need = true ↔
        ∀ kv ∈ need, 0 ≤ kv.2 ∧ kv.2 ≤ i pid kv.1) ∧
      (PlayerDB.inv_has i pid need = true ↔
        ∀ kv ∈ need, kv.2 ≤ 0 ∨ kv.2 ≤ i pid kv.1) ∧
      PlayerDB.inv_has i pid need = claimHas i pid need := by
  intro i pid need
  refine ⟨?_, ?_, rfl⟩
  · rw [GM.inv_has_iff]
    constructor
    · intro h kv hm
      exact and_comm.mp (h kv hm)
    · intro h kv hm
      exact and_comm.mp (h kv hm)
  · simp [PlayerDB.inv_has, List.all_eq_true]
